import Mathlib

/-!
Shallow embedding of `src/PhotoboothClovers.py` (an order-intake kiosk:
submissions append rows to a spreadsheet ledger, an admin toggles order
status, and a Socket.IO broadcast recomputes queue positions).

Strings are modelled as `List Char`.  The spreadsheet ledger is a list of
typed rows in insertion order, as returned by `get_all_records` with the
header `[ID, Name, Email, Copies, Amount Paid, Status, Timestamp]`.
Machine-level caveats: Python `int()` / `float()` are modelled on their
plain decimal fragment (optional sign, digits, optional decimal point);
exponents, `inf`, `nan`, underscore separators and non-ASCII digits are
outside the modelled fragment.  `str.lower` is modelled on ASCII.
-/

abbrev Chars := List Char

/-- Python whitespace characters recognised by `str.strip` (ASCII fragment). -/
def pyWsChars : Chars := [' ', '\t', '\n', '\x0d', '\x0b', '\x0c']

def isPyWs (c : Char) : Bool := pyWsChars.contains c

/-- Python `str.strip()`: drop leading and trailing whitespace. -/
def pyStrip (s : Chars) : Chars :=
  ((s.dropWhile isPyWs).reverse.dropWhile isPyWs).reverse

/-- Python `str.lower()` (ASCII fragment). -/
def pyLower (s : Chars) : Chars := s.map Char.toLower

/-- Line 98: `re.sub(r"[^a-zA-Z0-9\s]", "", name)` keeps alphanumerics and whitespace. -/
def sanitizeNameStr (s : Chars) : Chars :=
  s.filter (fun c => c.isAlphanum || isPyWs c)

/-- Line 99: `re.sub(r"[^a-zA-Z0-9@._-]", "", email)` keeps alphanumerics and `@._-`. -/
def sanitizeEmailStr (s : Chars) : Chars :=
  s.filter (fun c => c.isAlphanum || c = '@' || c = '.' || c = '_' || c = '-')

/-- One alternative of the regex `^[^@]+@(gmail\.com|up\.edu\.ph)$` with
`re.IGNORECASE` (lines 45-49): the lowercased string is a non-empty `@`-free
local part, an `@`, then exactly `dom`. -/
def emailDomainMatch (email : Chars) (dom : Chars) : Bool :=
  let low := pyLower email
  let m := dom.length + 1
  decide (m < low.length) &&
    decide (low.drop (low.length - m) = '@' :: dom) &&
    !((low.take (low.length - m)).contains '@')

/-- Lines 45-49: `valid_email` — empty is allowed, otherwise the address must
match `^[^@]+@(gmail\.com|up\.edu\.ph)$` case-insensitively. -/
def valid_email (email : Chars) : Bool :=
  email.isEmpty ||
    emailDomainMatch email "gmail.com".toList ||
    emailDomainMatch email "up.edu.ph".toList

/-- Python `int()` digit run (non-empty, decimal digits only). -/
def parseDigits (s : Chars) : Option Nat :=
  if s.isEmpty then none
  else if s.all Char.isDigit then
    some (s.foldl (fun a c => a * 10 + (c.toNat - '0'.toNat)) 0)
  else none

/-- Python `int(str)` on the plain decimal fragment: optional sign then digits. -/
def pyInt (s : Chars) : Option Int :=
  match s with
  | '+' :: rest => (parseDigits rest).map Int.ofNat
  | '-' :: rest => (parseDigits rest).map (fun n => -(n : Int))
  | _ => (parseDigits s).map Int.ofNat

/-- Value of a run of decimal digits. -/
def digitsVal (s : Chars) : Nat :=
  s.foldl (fun a c => a * 10 + (c.toNat - '0'.toNat)) 0

/-- A parsed decimal number `mantissa / 10 ^ shift`, kept in exact scaled-
integer form (so that every operation on it is computable by the kernel). -/
structure PyFloat where
  mantissa : Int
  shift : Nat
deriving DecidableEq

/-- The rational value of a parsed decimal. -/
def PyFloat.toRat (a : PyFloat) : Rat :=
  (a.mantissa : Rat) / (10 : Rat) ^ a.shift

/-- Unsigned body of a Python float literal: `digits`, `digits.digits`,
`digits.` or `.digits` (at least one digit overall). -/
def parseDecimalBody (s : Chars) : Option PyFloat :=
  let intPart := s.takeWhile Char.isDigit
  let rest := s.dropWhile Char.isDigit
  match rest with
  | [] => if intPart.isEmpty then none else some ⟨(digitsVal intPart : Int), 0⟩
  | '.' :: frac =>
    if frac.all Char.isDigit && (!intPart.isEmpty || !frac.isEmpty) then
      some ⟨(digitsVal intPart * 10 ^ frac.length + digitsVal frac : Nat), frac.length⟩
    else none
  | _ => none

/-- Python `float(str)` on the plain decimal fragment: optional sign then body. -/
def pyFloat (s : Chars) : Option PyFloat :=
  match s with
  | '+' :: rest => parseDecimalBody rest
  | '-' :: rest => (parseDecimalBody rest).map (fun a => ⟨-a.mantissa, a.shift⟩)
  | _ => parseDecimalBody s

/-- One ledger row, as `get_all_records` returns it under the expected header
`[ID, Name, Email, Copies, Amount Paid, Status, Timestamp]` (line 52).
No queue-number column exists: queue position is never stored in the ledger. -/
structure Row where
  id : Int
  name : Chars
  email : Chars
  copies : Int
  amount : PyFloat
  status : Chars
  timestamp : Chars
deriving DecidableEq

/-- Line 64: the broadcast path keeps records with `Status.lower() == "pending"`. -/
def isPendingRow (o : Row) : Bool := decide (pyLower o.status = "pending".toList)

/-- `enumerate(active, start=n)` packaged as (record, queue number) pairs. -/
def numberFrom (n : Nat) : List Row → List (Row × Nat)
  | [] => []
  | r :: rs => (r, n) :: numberFrom (n + 1) rs

/-- Lines 59-72: `broadcast_queue` — filter to records whose `Status`
lower-cases to `"pending"`, then assign queue numbers 1, 2, ... in ledger
order.  The result is emitted to the clients; the ledger is not written. -/
def broadcast_queue (records : List Row) : List (Row × Nat) :=
  numberFrom 1 (records.filter isPendingRow)

/-- Lines 55-57: `_pending_only` keeps records whose stripped `Status` does not
lower-case to `"done"`. -/
def _pending_only (records : List Row) : List Row :=
  records.filter (fun o => !(decide (pyLower (pyStrip o.status) = "done".toList)))

/-- Lines 179-185: `api_queue` — `_pending_only` plus queue numbers 1, 2, ... -/
def api_queue (records : List Row) : List (Row × Nat) :=
  numberFrom 1 (_pending_only records)

/-- The raw form fields read by `/submit` (lines 91-95), before sanitization. -/
structure SubmitInput where
  name : Chars
  email : Chars
  copies : Chars
  amount : Chars
  timestamp : Chars
deriving DecidableEq

/-- HTTP outcome of a route, as far as the core logic is concerned. -/
inductive Response where
  | emailError
  | inputError
  | thanks (position : Int)
  | dashboard
  | adminLogin
deriving DecidableEq

/-- Outcome of a `/submit` request: the ledger afterwards, the response, and
whether `broadcast_queue` was triggered. -/
structure SubmitResult where
  ledger : List Row
  response : Response
  broadcasted : Bool
deriving DecidableEq

/-- Lines 91-92 and 99: strip, lowercase, then sanitize the raw email field. -/
def submitEmail (inp : SubmitInput) : Chars :=
  sanitizeEmailStr (pyLower (pyStrip inp.email))

/-- Lines 91 and 98: strip then sanitize the raw name field. -/
def submitName (inp : SubmitInput) : Chars :=
  sanitizeNameStr (pyStrip inp.name)

/-- Lines 89-130: the `/submit` route.  Email domain is checked first
(lines 102-104); then `copies` must parse as an int ≥ 1 and `amount` as a
float ≥ 0 (lines 106-113, one shared error message); on success a row
`[new_id, name, email, copies, amount, "Pending", timestamp]` is appended
with `new_id = len(records) + 1` (lines 115-124) and a broadcast fires.
`serverTime` stands for `datetime.now()` formatting at line 121. -/
def submit (ledger : List Row) (inp : SubmitInput) (serverTime : Chars) : SubmitResult :=
  if !(valid_email (submitEmail inp)) then
    ⟨ledger, Response.emailError, false⟩
  else
    match pyInt (pyStrip inp.copies), pyFloat (pyStrip inp.amount) with
    | some c, some a =>
      if c < 1 ∨ a.mantissa < 0 then ⟨ledger, Response.inputError, false⟩
      else
        ⟨ledger ++ [⟨(ledger.length : Int) + 1, submitName inp, submitEmail inp, c, a,
            "Pending".toList,
            if (pyStrip inp.timestamp).isEmpty then serverTime else pyStrip inp.timestamp⟩],
          Response.thanks ((ledger.length : Int) + 1), true⟩
    | _, _ => ⟨ledger, Response.inputError, false⟩

/-- Line 168: `sheet.update_cell(idx, 6, new_status)` writes column 6, the
`Status` column.  `update_cell` writes exactly the addressed cell; the code
only ever addresses column 6, so the model carries the write for that column
(other columns of the row are never written by `toggle`). -/
def rowUpdateCell (r : Row) (col : Nat) (v : Chars) : Row :=
  if col = 6 then { r with status := v } else r

/-- Line 167: `"Done" if row.get("Status") == "Pending" else "Pending"` —
note the exact, case-sensitive comparison. -/
def toggleNewStatus (r : Row) : Chars :=
  if r.status = "Pending".toList then "Done".toList else "Pending".toList

/-- Lines 164-170: scan the records for the first row whose `ID` equals the
target, update its `Status` cell, broadcast, and `break`.  Returns the new
records together with whether a broadcast fired. -/
def toggleScan : List Row → Int → List Row × Bool
  | [], _ => ([], false)
  | r :: rs, oid =>
    if r.id = oid then
      (rowUpdateCell r 6 (toggleNewStatus r) :: rs, true)
    else
      let p := toggleScan rs oid
      (r :: p.1, p.2)

/-- Outcome of a `/toggle/<id>` request. -/
structure ToggleResult where
  ledger : List Row
  broadcasted : Bool
  response : Response
deriving DecidableEq

/-- Lines 159-171: the `/toggle/<order_id>` route.  Without an admin session
it redirects to the login page; otherwise it scans for the order and always
ends by re-rendering the dashboard, whether or not the ID was found. -/
def toggle (isAdmin : Bool) (ledger : List Row) (oid : Int) : ToggleResult :=
  if !isAdmin then ⟨ledger, false, Response.adminLogin⟩
  else ⟨(toggleScan ledger oid).1, (toggleScan ledger oid).2, Response.dashboard⟩

/-- First index (0-based) of a row satisfying `p`, mirroring the scan order of
the `toggle` loop; a specification device for the frame theorem. -/
def firstIdx (p : Row → Bool) : List Row → Option Nat
  | [] => none
  | r :: rs => if p r then some 0 else (firstIdx p rs).map (· + 1)

/-- Whole-process state.  `records` is the ledger; `overlay` is the cleared
overlay (present in repository revisions outside `src/`, see below);
`isAdmin` is the admin session flag (`session["is_admin"]`, lines 146/161). -/
structure AppState where
  records : List Row
  overlay : List Int
  isAdmin : Bool
deriving DecidableEq

/-- Modelled from the spec: the ClearedOverlay `add(id)` action of the admin
"clear" endpoint exists only in repository revisions not included under
`src/`.  Per spec §4.4 and §3 it adds the ID to an in-memory set that is
empty at process start, only grows, and never shrinks; the ledger row is not
touched. -/
def clearOrder (s : AppState) (oid : Int) : AppState :=
  { s with overlay := oid :: s.overlay }

/-- Modelled from the spec: QueueProjector §4.3 first filters out every order
whose ID is in the cleared overlay (`src/`'s `broadcast_queue` predates the
overlay and has no such filter). -/
def visible (s : AppState) : List Row :=
  s.records.filter (fun r => !(decide (r.id ∈ s.overlay)))

/-- Modelled from the spec: the `all` component of the projection — every
visible order, in ledger order (spec §4.3). -/
def projectAll (s : AppState) : List Row := visible s

/-- Modelled from the spec: the `pending` component of the projection — the
visible `Pending` orders with 1-based queue numbers, using `src/`'s
`broadcast_queue` selection and numbering on the visible records. -/
def projectPending (s : AppState) : List (Row × Nat) :=
  broadcast_queue (visible s)

/-- Modelled from the spec: `project(orders, overlay) -> {all, pending}`
(spec §4.3), reading only the records and the overlay. -/
def project (s : AppState) : List Row × List (Row × Nat) :=
  (projectAll s, projectPending s)

/-- The externally triggerable actions of the process. -/
inductive KioskAction where
  | submit (inp : SubmitInput) (serverTime : Chars)
  | toggle (oid : Int)
  | clear (oid : Int)
  | connectViewer
  | adminLogin (ok : Bool)

/-- One request against the shared state; returns the new state and the order
ID issued by this step, if any.  `submit` follows lines 89-130; `toggle`
follows lines 159-171; `clear` is the spec-modelled overlay add (admin
only); `connectViewer` (lines 77-80) broadcasts but changes nothing;
`adminLogin` sets the session flag (lines 141-150). -/
def stepA (s : AppState) (a : KioskAction) : AppState × Option Int :=
  match a with
  | KioskAction.submit inp t =>
    let res := submit s.records inp t
    ({ s with records := res.ledger },
      match res.response with
      | Response.thanks i => some i
      | _ => none)
  | KioskAction.toggle oid =>
    ({ s with records := (toggle s.isAdmin s.records oid).ledger }, none)
  | KioskAction.clear oid => (if s.isAdmin then clearOrder s oid else s, none)
  | KioskAction.connectViewer => (s, none)
  | KioskAction.adminLogin ok => ({ s with isAdmin := ok }, none)

/-- Run a sequence of actions, collecting the issued order IDs in issuance
order. -/
def runA (s : AppState) : List KioskAction → AppState × List Int
  | [] => (s, [])
  | a :: rest =>
    let p := stepA s a
    let q := runA p.1 rest
    (q.1, p.2.toList ++ q.2)

/-- Process start: empty ledger view, empty overlay, no admin session. -/
def initState : AppState := ⟨[], [], false⟩

/-- A ledger row in the flag-bearing revisions: `Printed` and `Claimed`
columns follow `Status`. -/
structure FRow where
  id : Int
  name : Chars
  email : Chars
  copies : Int
  amount : PyFloat
  status : Chars
  printed : Chars
  claimed : Chars
  timestamp : Chars
deriving DecidableEq

/-- Modelled from the spec: the status toggle of the flag-bearing revisions
(the `printed`/`claimed` sub-flag columns exist only in repository revisions
not included under `src/`).  It keeps `src/`'s scan-for-first-matching-ID
structure and exact status comparison; per spec §4.2, moving an order
`Done → Pending` must reset `printed = No` and `claimed = No` (a `Pending`
order toggles to `Done` with its flags untouched). -/
def toggleStatusFlagged : List FRow → Int → List FRow
  | [], _ => []
  | r :: rs, oid =>
    if r.id = oid then
      (if r.status = "Pending".toList then
        { r with status := "Done".toList }
      else
        { r with status := "Pending".toList,
                 printed := "No".toList, claimed := "No".toList }) :: rs
    else r :: toggleStatusFlagged rs oid

/-- Whether a response is the thanks page (i.e. an order was created and its
ID returned as the redirect position, line 130). -/
def isThanksB : Response → Bool
  | Response.thanks _ => true
  | _ => false

/-!  Helper lemmas. -/

/-- A parsed decimal is negative exactly when its mantissa is: the executable
check `a.mantissa < 0` used in `submit` agrees with `float < 0`. -/
lemma pyFloat_toRat_neg_iff (a : PyFloat) : a.toRat < 0 ↔ a.mantissa < 0 := by
  have h10 : (0 : Rat) < (10 : Rat) ^ a.shift := by positivity
  unfold PyFloat.toRat
  rw [div_lt_iff₀ h10, zero_mul]
  exact_mod_cast Iff.rfl

/-- A parsed decimal is non-negative exactly when its mantissa is. -/
lemma pyFloat_toRat_nonneg_iff (a : PyFloat) : 0 ≤ a.toRat ↔ 0 ≤ a.mantissa := by
  rw [← not_lt, ← not_lt, pyFloat_toRat_neg_iff]

lemma numberFrom_map_fst (l : List Row) : ∀ n, (numberFrom n l).map Prod.fst = l := by
  induction l with
  | nil => intro n; rfl
  | cons r rs ih => intro n; simp [numberFrom, ih]

lemma numberFrom_map_snd (l : List Row) :
    ∀ n, (numberFrom n l).map Prod.snd = List.range' n l.length := by
  induction l with
  | nil => intro n; rfl
  | cons r rs ih => intro n; simp [numberFrom, List.range', ih]

lemma numberFrom_mem_fst (l : List Row) :
    ∀ n p, p ∈ numberFrom n l → p.1 ∈ l := by
  induction l with
  | nil => intro n p hp; cases hp
  | cons r rs ih =>
    intro n p hp
    rw [numberFrom] at hp
    rcases List.mem_cons.mp hp with hp | hp
    · rw [hp]; exact List.mem_cons_self _ _
    · exact List.mem_cons_of_mem _ (ih _ _ hp)

lemma toggleScan_length (l : List Row) (oid : Int) :
    ((toggleScan l oid).1).length = l.length := by
  induction l with
  | nil => rfl
  | cons r rs ih =>
    rw [toggleScan]
    split
    · rfl
    · simpa using ih

lemma toggleScan_not_found (l : List Row) (oid : Int)
    (h : ∀ r ∈ l, r.id ≠ oid) : toggleScan l oid = (l, false) := by
  induction l with
  | nil => rfl
  | cons r rs ih =>
    rw [toggleScan]
    rw [if_neg (h r (List.mem_cons_self _ _))]
    rw [ih (fun x hx => h x (List.mem_cons_of_mem _ hx))]

lemma submit_spec (l : List Row) (inp : SubmitInput) (t : Chars) :
    ((submit l inp t).ledger = l ∧ isThanksB (submit l inp t).response = false) ∨
    ((submit l inp t).ledger.length = l.length + 1 ∧
      (submit l inp t).response = Response.thanks ((l.length : Int) + 1)) := by
  unfold submit
  split
  · exact Or.inl ⟨rfl, rfl⟩
  · split
    · split
      · exact Or.inl ⟨rfl, rfl⟩
      · exact Or.inr ⟨by simp, rfl⟩
    · exact Or.inl ⟨rfl, rfl⟩

lemma stepA_spec (s : AppState) (a : KioskAction) :
    ((stepA s a).2 = none ∧ ((stepA s a).1).records.length = s.records.length) ∨
    ((stepA s a).2 = some ((s.records.length : Int) + 1) ∧
      ((stepA s a).1).records.length = s.records.length + 1) := by
  cases a with
  | submit inp t =>
    rcases submit_spec s.records inp t with ⟨h1, h2⟩ | ⟨h1, h2⟩
    · left
      constructor
      · cases hr : (submit s.records inp t).response
        case thanks position => simp [hr, isThanksB] at h2
        all_goals simp [stepA, hr]
      · simp [stepA, h1]
    · right
      constructor
      · simp [stepA, h2]
      · simp [stepA, h1]
  | toggle oid =>
    left
    refine ⟨rfl, ?_⟩
    show (toggle s.isAdmin s.records oid).ledger.length = s.records.length
    unfold toggle
    split
    · rfl
    · exact toggleScan_length s.records oid
  | clear oid =>
    left
    refine ⟨rfl, ?_⟩
    show (if s.isAdmin then clearOrder s oid else s).records.length = s.records.length
    split <;> rfl
  | connectViewer => exact Or.inl ⟨rfl, rfl⟩
  | adminLogin ok => exact Or.inl ⟨rfl, rfl⟩

lemma runA_issued (acts : List KioskAction) : ∀ s : AppState,
    (∀ i ∈ (runA s acts).2, (s.records.length : Int) < i) ∧
    ((runA s acts).2).Pairwise (· < ·) := by
  induction acts with
  | nil => intro s; simp [runA]
  | cons a rest ih =>
    intro s
    rcases stepA_spec s a with ⟨h1, h2⟩ | ⟨h1, h2⟩
    · constructor
      · intro i hi
        simp only [runA, h1, Option.toList_none, List.nil_append] at hi
        have := (ih (stepA s a).1).1 i hi
        rwa [h2] at this
      · simp only [runA, h1, Option.toList_none, List.nil_append]
        exact (ih (stepA s a).1).2
    · have hrest : ∀ i ∈ (runA (stepA s a).1 rest).2, (s.records.length : Int) + 1 < i := by
        intro i hi
        have := (ih (stepA s a).1).1 i hi
        rw [h2] at this
        exact_mod_cast this
      constructor
      · intro i hi
        simp only [runA, h1, Option.toList_some, List.cons_append, List.nil_append,
          List.mem_cons] at hi
        rcases hi with hi | hi
        · rw [hi]; exact lt_add_one _
        · exact lt_trans (lt_add_one _) (hrest i hi)
      · simp only [runA, h1, Option.toList_some, List.cons_append, List.nil_append,
          List.pairwise_cons]
        exact ⟨hrest, (ih (stepA s a).1).2⟩

lemma stepA_overlay_mono (s : AppState) (a : KioskAction) :
    ∀ x ∈ s.overlay, x ∈ ((stepA s a).1).overlay := by
  intro x hx
  cases a with
  | submit inp t => exact hx
  | toggle oid => exact hx
  | clear oid =>
    show x ∈ (if s.isAdmin then clearOrder s oid else s).overlay
    split
    · exact List.mem_cons_of_mem _ hx
    · exact hx
  | connectViewer => exact hx
  | adminLogin ok => exact hx

lemma runA_overlay_mono (acts : List KioskAction) :
    ∀ s : AppState, ∀ x ∈ s.overlay, x ∈ ((runA s acts).1).overlay := by
  induction acts with
  | nil => intro s x hx; exact hx
  | cons a rest ih =>
    intro s x hx
    exact ih (stepA s a).1 x (stepA_overlay_mono s a x hx)

lemma visible_excludes (s : AppState) (oid : Int) (h : oid ∈ s.overlay) :
    ∀ r ∈ visible s, r.id ≠ oid := by
  intro r hr heq
  unfold visible at hr
  rcases List.mem_filter.mp hr with ⟨-, hcond⟩
  rw [heq] at hcond
  simp at hcond
  exact hcond h

/-!  Claim theorems. -/

/-- C4: for every list of ledger records, the broadcast pending view assigns
queue numbers exactly `1, 2, ..., len(pending)` with no gaps, to the pending
records in ledger insertion order, regardless of how many `Done` or cleared
orders the list holds; the same holds for the JSON API view with its own
pending selection; and a broadcast (viewer connect) writes nothing back to
the shared state, so queue numbers are never stored in the ledger. -/
theorem claim_c4_queue_numbers_contiguous (records : List Row) (s : AppState) :
    (broadcast_queue records).map Prod.snd =
      List.range' 1 (records.filter isPendingRow).length ∧
    (broadcast_queue records).map Prod.fst = records.filter isPendingRow ∧
    (api_queue records).map Prod.snd = List.range' 1 (_pending_only records).length ∧
    (api_queue records).map Prod.fst = _pending_only records ∧
    (stepA s KioskAction.connectViewer).1 = s := by
  refine ⟨?_, ?_, ?_, ?_, rfl⟩
  · exact numberFrom_map_snd _ 1
  · exact numberFrom_map_fst _ 1
  · exact numberFrom_map_snd _ 1
  · exact numberFrom_map_fst _ 1

/-- C7: the admin status toggle on an ID that occurs nowhere in the ledger is
a benign no-op — no cell is written, no broadcast is emitted, and the
response is still the dashboard re-render, not a failure. -/
theorem claim_c7_toggle_missing_id_noop (ledger : List Row) (oid : Int)
    (h : ∀ r ∈ ledger, r.id ≠ oid) :
    toggle true ledger oid = ⟨ledger, false, Response.dashboard⟩ := by
  unfold toggle
  rw [toggleScan_not_found ledger oid h]
  rfl

/-- Witness for C7 at a concrete ledger and an absent ID. -/
theorem claim_c7_witness :
    toggle true [⟨1, "a".toList, [], 1, ⟨0, 0⟩, "Pending".toList, []⟩] 2 =
      ⟨[⟨1, "a".toList, [], 1, ⟨0, 0⟩, "Pending".toList, []⟩], false, Response.dashboard⟩ :=
  claim_c7_toggle_missing_id_noop _ 2 (by decide)

/-- C8: the projection is a pure function of the ledger records and the
cleared overlay — two application states that agree on those two components
(whatever their other state, such as the admin session) produce identical
projections, queue numbers included, for both the spec-level `project` and
the source's `broadcast_queue`. -/
theorem claim_c8_projection_deterministic (s₁ s₂ : AppState)
    (hrec : s₁.records = s₂.records) (hov : s₁.overlay = s₂.overlay) :
    project s₁ = project s₂ ∧ broadcast_queue s₁.records = broadcast_queue s₂.records := by
  cases s₁
  cases s₂
  cases hrec
  cases hov
  exact ⟨rfl, rfl⟩

/-- Witness for C8 at two concrete states differing in the admin session. -/
theorem claim_c8_witness :
    project ⟨[⟨1, [], [], 1, ⟨5, 0⟩, "Pending".toList, []⟩], [7], true⟩ =
      project ⟨[⟨1, [], [], 1, ⟨5, 0⟩, "Pending".toList, []⟩], [7], false⟩ ∧
    broadcast_queue (AppState.records ⟨[⟨1, [], [], 1, ⟨5, 0⟩, "Pending".toList, []⟩], [7], true⟩) =
      broadcast_queue (AppState.records ⟨[⟨1, [], [], 1, ⟨5, 0⟩, "Pending".toList, []⟩], [7], false⟩) :=
  claim_c8_projection_deterministic _ _ rfl rfl

/-- C1: along every sequence of requests from process start, the order IDs
assigned by accepted submissions (returned to the submitter and written into
the appended row) are strictly increasing in issuance order, hence pairwise
distinct, and an ID is never reused even when orders are hidden by clear
actions or toggled along the way. -/
theorem claim_c1_ids_strictly_increasing (acts : List KioskAction) :
    ((runA initState acts).2).Pairwise (· < ·) ∧ ((runA initState acts).2).Nodup := by
  have h := runA_issued acts initState
  exact ⟨h.2, h.2.imp (fun hlt => ne_of_lt hlt)⟩

/-- C3: once an order ID has been added to the cleared overlay by an admin
clear action, no later projection — neither the `all` view nor the `pending`
view — ever contains that ID again, whatever further actions (including
status toggles on that very ID) occur. -/
theorem claim_c3_cleared_never_reappears (acts₁ acts₂ : List KioskAction) (oid : Int)
    (h : oid ∈ ((runA initState acts₁).1).overlay) :
    ((projectAll ((runA ((runA initState acts₁).1) acts₂).1)).all
        (fun r => !(decide (r.id = oid))) = true) ∧
    ((projectPending ((runA ((runA initState acts₁).1) acts₂).1)).all
        (fun p => !(decide (p.1.id = oid))) = true) := by
  have h₂ : oid ∈ ((runA ((runA initState acts₁).1) acts₂).1).overlay :=
    runA_overlay_mono acts₂ _ oid h
  constructor
  · rw [List.all_eq_true]
    intro r hr
    have := visible_excludes _ oid h₂ r hr
    simpa using this
  · rw [List.all_eq_true]
    intro p hp
    have hm : p.1 ∈ (visible ((runA ((runA initState acts₁).1) acts₂).1)).filter isPendingRow := by
      unfold projectPending broadcast_queue at hp
      exact numberFrom_mem_fst _ 1 p hp
    have hv : p.1 ∈ visible ((runA ((runA initState acts₁).1) acts₂).1) :=
      (List.mem_filter.mp hm).1
    have := visible_excludes _ oid h₂ p.1 hv
    simpa using this

/-- Witness for C3: clear ID 5 as admin, then toggle it; it stays hidden. -/
theorem claim_c3_witness :
    ((projectAll ((runA ((runA initState
          [KioskAction.adminLogin true, KioskAction.clear 5]).1)
          [KioskAction.toggle 5]).1)).all
        (fun r => !(decide (r.id = 5))) = true) ∧
    ((projectPending ((runA ((runA initState
          [KioskAction.adminLogin true, KioskAction.clear 5]).1)
          [KioskAction.toggle 5]).1)).all
        (fun p => !(decide (p.1.id = 5))) = true) :=
  claim_c3_cleared_never_reappears
    [KioskAction.adminLogin true, KioskAction.clear 5] [KioskAction.toggle 5] 5 (by decide)

/-- C2: in the flag-bearing revisions' model, toggling the status of an order
whose current status is `Done` moves it to `Pending` and leaves it with
`printed = No` and `claimed = No`, whatever the prior values of those flags. -/
theorem claim_c2_done_to_pending_resets_flags (rows : List FRow) (oid : Int)
    (h : ((rows.find? (fun r => decide (r.id = oid))).map FRow.status) = some "Done".toList) :
    (((toggleStatusFlagged rows oid).find? (fun r => decide (r.id = oid))).map
        (fun r => (r.status, r.printed, r.claimed)))
      = some ("Pending".toList, "No".toList, "No".toList) := by
  induction rows with
  | nil => simp [List.find?] at h
  | cons r rs ih =>
    by_cases hp : r.id = oid
    · have hfind : (r :: rs).find? (fun x => decide (x.id = oid)) = some r := by
        simp [List.find?_cons_of_pos, hp]
      rw [hfind] at h
      have hst : r.status = "Done".toList := by simpa using h
      simp only [toggleStatusFlagged]
      rw [if_pos hp, hst, if_neg (by decide : ¬ ("Done".toList = "Pending".toList))]
      simp [List.find?_cons_of_pos, hp]
    · have hfind : (r :: rs).find? (fun x => decide (x.id = oid)) =
          rs.find? (fun x => decide (x.id = oid)) := by
        simp [List.find?_cons_of_neg, hp]
      rw [hfind] at h
      simp only [toggleStatusFlagged]
      rw [if_neg hp]
      have hskip : (r :: toggleStatusFlagged rs oid).find? (fun x => decide (x.id = oid)) =
          (toggleStatusFlagged rs oid).find? (fun x => decide (x.id = oid)) := by
        simp [List.find?_cons_of_neg, hp]
      rw [hskip]
      exact ih h

/-- Witness for C2 at a `Done` order whose flags are both `Yes`. -/
theorem claim_c2_witness :
    (((toggleStatusFlagged
          [⟨1, [], [], 1, ⟨0, 0⟩, "Done".toList, "Yes".toList, "Yes".toList, []⟩] 1).find?
        (fun r => decide (r.id = 1))).map (fun r => (r.status, r.printed, r.claimed)))
      = some ("Pending".toList, "No".toList, "No".toList) :=
  claim_c2_done_to_pending_resets_flags _ 1 (by decide)

/-- C9 counterexample: a record with a blank `Status` cell is selected by the
JSON API path (`_pending_only`: blank does not strip-lower to `"done"`) but
not by the broadcast path (`broadcast_queue`: blank does not lower to
`"pending"`), so the two selected sets differ. -/
theorem claim_c9_counterexample :
    (⟨1, [], [], 1, ⟨0, 0⟩, [], []⟩ : Row) ∈ _pending_only [⟨1, [], [], 1, ⟨0, 0⟩, [], []⟩] ∧
    (⟨1, [], [], 1, ⟨0, 0⟩, [], []⟩ : Row) ∉
      ([⟨1, [], [], 1, ⟨0, 0⟩, [], []⟩] : List Row).filter isPendingRow ∧
    broadcast_queue [⟨1, [], [], 1, ⟨0, 0⟩, [], []⟩] = [] ∧
    api_queue [⟨1, [], [], 1, ⟨0, 0⟩, [], []⟩] =
      [(⟨1, [], [], 1, ⟨0, 0⟩, [], []⟩, 1)] := by
  decide

/-- C9 (amended): on every list of ledger records whose `Status` fields are
each exactly `"Pending"` or `"Done"` — the only two values this code ever
writes — the broadcast path and the JSON API path select the same records,
and the two queue views coincide. -/
theorem claim_c9_filters_agree (records : List Row)
    (h : ∀ r ∈ records, r.status = "Pending".toList ∨ r.status = "Done".toList) :
    records.filter isPendingRow = _pending_only records ∧
    broadcast_queue records = api_queue records := by
  have hf : records.filter isPendingRow = _pending_only records := by
    unfold _pending_only
    apply List.filter_congr
    intro r hr
    rcases h r hr with h1 | h1
    · show isPendingRow r = !(decide (pyLower (pyStrip r.status) = "done".toList))
      unfold isPendingRow
      rw [h1]
      decide
    · show isPendingRow r = !(decide (pyLower (pyStrip r.status) = "done".toList))
      unfold isPendingRow
      rw [h1]
      decide
  refine ⟨hf, ?_⟩
  unfold broadcast_queue api_queue
  rw [hf]

/-- Witness for C9 at a ledger containing one `Pending` and one `Done` row. -/
theorem claim_c9_witness :
    ([⟨1, [], [], 1, ⟨0, 0⟩, "Pending".toList, []⟩,
      ⟨2, [], [], 1, ⟨0, 0⟩, "Done".toList, []⟩] : List Row).filter isPendingRow =
      _pending_only [⟨1, [], [], 1, ⟨0, 0⟩, "Pending".toList, []⟩,
        ⟨2, [], [], 1, ⟨0, 0⟩, "Done".toList, []⟩] ∧
    broadcast_queue [⟨1, [], [], 1, ⟨0, 0⟩, "Pending".toList, []⟩,
        ⟨2, [], [], 1, ⟨0, 0⟩, "Done".toList, []⟩] =
      api_queue [⟨1, [], [], 1, ⟨0, 0⟩, "Pending".toList, []⟩,
        ⟨2, [], [], 1, ⟨0, 0⟩, "Done".toList, []⟩] :=
  claim_c9_filters_agree _ (by decide)

/-- C5 counterexample: an input whose sanitized email is non-empty and
matches the allow-listed domain `gmail.com`, yet no order is created,
because `copies = "0"` fails the numeric validation that runs after the
email check — so "creates an order if and only if the email matches" fails
in the `if` direction. -/
theorem claim_c5_counterexample :
    submitEmail ⟨"x".toList, "a@gmail.com".toList, "0".toList, "0".toList, []⟩ ≠ [] ∧
    valid_email
      (submitEmail ⟨"x".toList, "a@gmail.com".toList, "0".toList, "0".toList, []⟩) = true ∧
    (submit [] ⟨"x".toList, "a@gmail.com".toList, "0".toList, "0".toList, []⟩ []).ledger = [] ∧
    (submit [] ⟨"x".toList, "a@gmail.com".toList, "0".toList, "0".toList, []⟩ []).response =
      Response.inputError := by
  decide

/-- C5 (amended): for every submission input, `submit` rejects with the email
validation error exactly when the sanitized email is non-empty and fails the
allow-listed-domain check (`gmail.com` / `up.edu.ph`, case-insensitive) — in
particular an empty email always passes the email check; on an email
rejection the submitter is shown the error, no order row is appended and no
broadcast fires; and an order is only ever created when the email check
passes. -/
theorem claim_c5_email_gate (ledger : List Row) (inp : SubmitInput) (t : Chars) :
    ((submit ledger inp t).response = Response.emailError ↔
      submitEmail inp ≠ [] ∧ valid_email (submitEmail inp) = false) ∧
    ((submit ledger inp t).response = Response.emailError →
      (submit ledger inp t).ledger = ledger ∧ (submit ledger inp t).broadcasted = false) ∧
    (isThanksB (submit ledger inp t).response = true →
      valid_email (submitEmail inp) = true) := by
  cases hv : valid_email (submitEmail inp) with
  | false =>
    have hne : submitEmail inp ≠ [] := by
      intro he
      rw [he] at hv
      simp [valid_email] at hv
    have hsub : submit ledger inp t = ⟨ledger, Response.emailError, false⟩ := by
      unfold submit
      rw [hv]
      rfl
    rw [hsub]
    refine ⟨?_, ?_, ?_⟩
    · simp [hne]
    · intro _; exact ⟨rfl, rfl⟩
    · intro hth; cases hth
  | true =>
    have hr : (submit ledger inp t).response ≠ Response.emailError := by
      unfold submit
      rw [hv, Bool.not_true, if_neg Bool.false_ne_true]
      split
      · split
        · simp
        · simp
      · simp
    refine ⟨?_, ?_, ?_⟩
    · constructor
      · intro hcontra; exact absurd hcontra hr
      · rintro ⟨-, hvf⟩
        cases hvf
    · intro hcontra; exact absurd hcontra hr
    · intro _; rfl

/-- Witness for C5 at an input with an empty email (which passes the check)
and at valid numeric fields. -/
theorem claim_c5_witness :
    ((submit [] ⟨"x".toList, [], "2".toList, "3.5".toList, []⟩ []).response =
        Response.emailError ↔
      submitEmail ⟨"x".toList, [], "2".toList, "3.5".toList, []⟩ ≠ [] ∧
      valid_email (submitEmail ⟨"x".toList, [], "2".toList, "3.5".toList, []⟩) = false) ∧
    ((submit [] ⟨"x".toList, [], "2".toList, "3.5".toList, []⟩ []).response =
        Response.emailError →
      (submit [] ⟨"x".toList, [], "2".toList, "3.5".toList, []⟩ []).ledger = [] ∧
      (submit [] ⟨"x".toList, [], "2".toList, "3.5".toList, []⟩ []).broadcasted = false) ∧
    (isThanksB (submit [] ⟨"x".toList, [], "2".toList, "3.5".toList, []⟩ []).response = true →
      valid_email (submitEmail ⟨"x".toList, [], "2".toList, "3.5".toList, []⟩) = true) :=
  claim_c5_email_gate [] ⟨"x".toList, [], "2".toList, "3.5".toList, []⟩ []

lemma submit_branches (l : List Row) (inp : SubmitInput) (t : Chars)
    (h : valid_email (submitEmail inp) = true) :
    (∃ c a, pyInt (pyStrip inp.copies) = some c ∧ pyFloat (pyStrip inp.amount) = some a ∧
      ¬(c < 1 ∨ a.mantissa < 0) ∧
      submit l inp t = ⟨l ++ [⟨(l.length : Int) + 1, submitName inp, submitEmail inp, c, a,
        "Pending".toList,
        if (pyStrip inp.timestamp).isEmpty then t else pyStrip inp.timestamp⟩],
        Response.thanks ((l.length : Int) + 1), true⟩) ∨
    ((∀ c a, pyInt (pyStrip inp.copies) = some c → pyFloat (pyStrip inp.amount) = some a →
        (c < 1 ∨ a.mantissa < 0)) ∧
      submit l inp t = ⟨l, Response.inputError, false⟩) := by
  rw [submit, h, Bool.not_true, if_neg Bool.false_ne_true]
  split
  next c a hc ha =>
    by_cases hlt : c < 1 ∨ a.mantissa < 0
    · rw [if_pos hlt]
      right
      refine ⟨?_, rfl⟩
      intro c' a' hc' ha'
      rw [hc] at hc'
      rw [ha] at ha'
      injection hc' with hc2
      injection ha' with ha2
      rw [← hc2, ← ha2]
      exact hlt
    · rw [if_neg hlt]
      exact Or.inl ⟨c, a, hc, ha, hlt, rfl⟩
  next hnone =>
    right
    refine ⟨?_, rfl⟩
    intro c a hc ha
    exact (hnone c a hc ha).elim

/-- C6 counterexample: an input whose `copies` parses to 1 and whose `amount`
parses to 0, yet no row is appended, because the email check (which runs
first) rejects `bad@evil.com` — so "appends a row if and only if copies and
amount are valid" fails in the `if` direction. -/
theorem claim_c6_counterexample :
    pyInt (pyStrip "1".toList) = some 1 ∧
    pyFloat (pyStrip "0".toList) = some ⟨0, 0⟩ ∧
    (submit [] ⟨"x".toList, "bad@evil.com".toList, "1".toList, "0".toList, []⟩ []).ledger = [] ∧
    (submit [] ⟨"x".toList, "bad@evil.com".toList, "1".toList, "0".toList, []⟩ []).response =
      Response.emailError := by
  decide

/-- C6 (amended): for every submission input that passes the email check,
`submit` appends an order row to the ledger exactly when `copies` parses as
an integer ≥ 1 and `amount` parses as a non-negative number; when either
numeric check fails, the ledger is unchanged, no broadcast fires, and the
validation error is reported to the submitter. -/
theorem claim_c6_numeric_gate (ledger : List Row) (inp : SubmitInput) (t : Chars)
    (h : valid_email (submitEmail inp) = true) :
    ((∃ r, (submit ledger inp t).ledger = ledger ++ [r]) ↔
      (∃ c a, pyInt (pyStrip inp.copies) = some c ∧ pyFloat (pyStrip inp.amount) = some a ∧
        1 ≤ c ∧ 0 ≤ a.toRat)) ∧
    ((¬ ∃ c a, pyInt (pyStrip inp.copies) = some c ∧ pyFloat (pyStrip inp.amount) = some a ∧
        1 ≤ c ∧ 0 ≤ a.toRat) →
      submit ledger inp t = ⟨ledger, Response.inputError, false⟩) := by
  rcases submit_branches ledger inp t h with ⟨c, a, hc, ha, hok, hres⟩ | ⟨hbad, hres⟩
  · push_neg at hok
    constructor
    · constructor
      · intro _
        exact ⟨c, a, hc, ha, by omega, (pyFloat_toRat_nonneg_iff a).mpr (by omega)⟩
      · intro _
        rw [hres]
        exact ⟨_, rfl⟩
    · intro hne
      exfalso
      exact hne ⟨c, a, hc, ha, by omega, (pyFloat_toRat_nonneg_iff a).mpr (by omega)⟩
  · constructor
    · constructor
      · rintro ⟨r, hr⟩
        rw [hres] at hr
        exact absurd (congrArg List.length hr) (by simp)
      · rintro ⟨c, a, hc, ha, h1, h0⟩
        have hba := hbad c a hc ha
        have h0m := (pyFloat_toRat_nonneg_iff a).mp h0
        exfalso
        omega
    · intro _
      exact hres

/-- Witness for C6 at an input with an empty email and valid numeric fields. -/
theorem claim_c6_witness :
    ((∃ r, (submit [] ⟨"x".toList, [], "2".toList, "3.5".toList, []⟩ []).ledger = [] ++ [r]) ↔
      (∃ c a, pyInt (pyStrip "2".toList) = some c ∧ pyFloat (pyStrip "3.5".toList) = some a ∧
        1 ≤ c ∧ 0 ≤ a.toRat)) ∧
    ((¬ ∃ c a, pyInt (pyStrip "2".toList) = some c ∧ pyFloat (pyStrip "3.5".toList) = some a ∧
        1 ≤ c ∧ 0 ≤ a.toRat) →
      submit [] ⟨"x".toList, [], "2".toList, "3.5".toList, []⟩ [] =
        ⟨[], Response.inputError, false⟩) :=
  claim_c6_numeric_gate [] ⟨"x".toList, [], "2".toList, "3.5".toList, []⟩ [] (by decide)

lemma rowUpdateCell_status (r : Row) (v : Chars) :
    rowUpdateCell r 6 v = { r with status := v } := rfl

lemma toggleNewStatus_cases (r : Row) :
    toggleNewStatus r = "Done".toList ∨ toggleNewStatus r = "Pending".toList := by
  unfold toggleNewStatus
  split
  · exact Or.inl rfl
  · exact Or.inr rfl

lemma toggleScan_frame (oid : Int) (l : List Row) :
    (((toggleScan l oid).1).map
        (fun r => (r.id, r.name, r.email, r.copies, r.amount, r.timestamp)) =
      l.map (fun r => (r.id, r.name, r.email, r.copies, r.amount, r.timestamp))) ∧
    (∀ k, firstIdx (fun r => decide (r.id = oid)) l ≠ some k →
      (((toggleScan l oid).1).get? k).map Row.status = (l.get? k).map Row.status) ∧
    (∀ k, firstIdx (fun r => decide (r.id = oid)) l = some k →
      ((((toggleScan l oid).1).get? k).map Row.status = some ("Done".toList) ∨
       (((toggleScan l oid).1).get? k).map Row.status = some ("Pending".toList))) := by
  induction l with
  | nil =>
    refine ⟨rfl, ?_, ?_⟩
    · intro k _; rfl
    · intro k hk; simp [firstIdx] at hk
  | cons r rs ih =>
    obtain ⟨ih1, ih2, ih3⟩ := ih
    by_cases hp : r.id = oid
    · have hscan : toggleScan (r :: rs) oid =
          (rowUpdateCell r 6 (toggleNewStatus r) :: rs, true) := by
        rw [toggleScan, if_pos hp]
      have hfi : firstIdx (fun x => decide (x.id = oid)) (r :: rs) = some 0 := by
        rw [firstIdx, if_pos (decide_eq_true hp)]
      rw [hscan]
      refine ⟨?_, ?_, ?_⟩
      · rw [List.map_cons, List.map_cons]
        rfl
      · intro k hk
        rw [hfi] at hk
        cases k with
        | zero => exact absurd rfl hk
        | succ k => rfl
      · intro k hk
        rw [hfi] at hk
        injection hk with hk0
        cases k with
        | zero =>
          rcases toggleNewStatus_cases r with hD | hP
          · left
            show some ((rowUpdateCell r 6 (toggleNewStatus r)).status) = _
            rw [rowUpdateCell_status, hD]
          · right
            show some ((rowUpdateCell r 6 (toggleNewStatus r)).status) = _
            rw [rowUpdateCell_status, hP]
        | succ k => exact absurd hk0 (by omega)
    · have hscan : toggleScan (r :: rs) oid =
          (r :: (toggleScan rs oid).1, (toggleScan rs oid).2) := by
        rw [toggleScan, if_neg hp]
      have hfi : firstIdx (fun x => decide (x.id = oid)) (r :: rs) =
          (firstIdx (fun x => decide (x.id = oid)) rs).map (· + 1) := by
        rw [firstIdx, if_neg (by simp [hp])]
      rw [hscan]
      refine ⟨?_, ?_, ?_⟩
      · rw [List.map_cons, List.map_cons, ih1]
      · intro k hk
        rw [hfi] at hk
        cases k with
        | zero => rfl
        | succ k =>
          have hk' : firstIdx (fun x => decide (x.id = oid)) rs ≠ some k := by
            intro hc
            exact hk (by rw [hc]; rfl)
          exact ih2 k hk'
      · intro k hk
        rw [hfi] at hk
        rcases Option.map_eq_some'.mp hk with ⟨j, hj1, hj2⟩
        cases k with
        | zero => exact absurd hj2 (by omega)
        | succ k =>
          have hjk : j = k := by omega
          rw [hjk] at hj1
          exact ih3 k hj1

/-- C10: the admin status toggle writes at most one cell.  The non-status
fields of every row are untouched, every row other than the first one whose
`ID` equals the target keeps its status, and the status written to that first
matching row is always exactly `"Done"` or `"Pending"` (column 6, the
`Status` column). -/
theorem claim_c10_toggle_frame (ledger : List Row) (oid : Int) :
    (((toggle true ledger oid).ledger).map
        (fun r => (r.id, r.name, r.email, r.copies, r.amount, r.timestamp)) =
      ledger.map (fun r => (r.id, r.name, r.email, r.copies, r.amount, r.timestamp))) ∧
    (∀ k, firstIdx (fun r => decide (r.id = oid)) ledger ≠ some k →
      (((toggle true ledger oid).ledger).get? k).map Row.status =
        (ledger.get? k).map Row.status) ∧
    (∀ k, firstIdx (fun r => decide (r.id = oid)) ledger = some k →
      ((((toggle true ledger oid).ledger).get? k).map Row.status = some ("Done".toList) ∨
       (((toggle true ledger oid).ledger).get? k).map Row.status =
         some ("Pending".toList))) :=
  toggleScan_frame oid ledger

/-- Witness for C10 at a two-row ledger, toggling the second row. -/
theorem claim_c10_witness :
    (((toggle true [⟨1, [], [], 1, ⟨0, 0⟩, "Pending".toList, []⟩,
          ⟨2, [], [], 1, ⟨0, 0⟩, "Done".toList, []⟩] 2).ledger).map
        (fun r => (r.id, r.name, r.email, r.copies, r.amount, r.timestamp)) =
      ([⟨1, [], [], 1, ⟨0, 0⟩, "Pending".toList, []⟩,
          ⟨2, [], [], 1, ⟨0, 0⟩, "Done".toList, []⟩] : List Row).map
        (fun r => (r.id, r.name, r.email, r.copies, r.amount, r.timestamp))) ∧
    ((((toggle true [⟨1, [], [], 1, ⟨0, 0⟩, "Pending".toList, []⟩,
          ⟨2, [], [], 1, ⟨0, 0⟩, "Done".toList, []⟩] 2).ledger).get? 0).map Row.status =
      (([⟨1, [], [], 1, ⟨0, 0⟩, "Pending".toList, []⟩,
          ⟨2, [], [], 1, ⟨0, 0⟩, "Done".toList, []⟩] : List Row).get? 0).map Row.status) ∧
    ((((toggle true [⟨1, [], [], 1, ⟨0, 0⟩, "Pending".toList, []⟩,
          ⟨2, [], [], 1, ⟨0, 0⟩, "Done".toList, []⟩] 2).ledger).get? 1).map Row.status =
        some ("Done".toList) ∨
     (((toggle true [⟨1, [], [], 1, ⟨0, 0⟩, "Pending".toList, []⟩,
          ⟨2, [], [], 1, ⟨0, 0⟩, "Done".toList, []⟩] 2).ledger).get? 1).map Row.status =
        some ("Pending".toList)) :=
  ⟨(claim_c10_toggle_frame _ 2).1,
   (claim_c10_toggle_frame _ 2).2.1 0 (by decide),
   (claim_c10_toggle_frame _ 2).2.2 1 (by decide)⟩

/-- Witness for C1 at a concrete two-submission run. -/
theorem claim_c1_witness :
    ((runA initState
        [KioskAction.submit ⟨"x".toList, [], "2".toList, "3.5".toList, []⟩ [],
         KioskAction.submit ⟨"y".toList, [], "1".toList, "0".toList, []⟩ []]).2).Pairwise
      (· < ·) ∧
    ((runA initState
        [KioskAction.submit ⟨"x".toList, [], "2".toList, "3.5".toList, []⟩ [],
         KioskAction.submit ⟨"y".toList, [], "1".toList, "0".toList, []⟩ []]).2).Nodup :=
  claim_c1_ids_strictly_increasing
    [KioskAction.submit ⟨"x".toList, [], "2".toList, "3.5".toList, []⟩ [],
     KioskAction.submit ⟨"y".toList, [], "1".toList, "0".toList, []⟩ []]

/-- Witness for C4 at a ledger mixing `Pending` and `Done` rows. -/
theorem claim_c4_witness :
    (broadcast_queue [⟨1, [], [], 1, ⟨0, 0⟩, "Done".toList, []⟩,
        ⟨2, [], [], 1, ⟨0, 0⟩, "Pending".toList, []⟩,
        ⟨3, [], [], 1, ⟨0, 0⟩, "Pending".toList, []⟩]).map Prod.snd =
      List.range' 1 (([⟨1, [], [], 1, ⟨0, 0⟩, "Done".toList, []⟩,
        ⟨2, [], [], 1, ⟨0, 0⟩, "Pending".toList, []⟩,
        ⟨3, [], [], 1, ⟨0, 0⟩, "Pending".toList, []⟩] : List Row).filter isPendingRow).length ∧
    (broadcast_queue [⟨1, [], [], 1, ⟨0, 0⟩, "Done".toList, []⟩,
        ⟨2, [], [], 1, ⟨0, 0⟩, "Pending".toList, []⟩,
        ⟨3, [], [], 1, ⟨0, 0⟩, "Pending".toList, []⟩]).map Prod.fst =
      ([⟨1, [], [], 1, ⟨0, 0⟩, "Done".toList, []⟩,
        ⟨2, [], [], 1, ⟨0, 0⟩, "Pending".toList, []⟩,
        ⟨3, [], [], 1, ⟨0, 0⟩, "Pending".toList, []⟩] : List Row).filter isPendingRow ∧
    (api_queue [⟨1, [], [], 1, ⟨0, 0⟩, "Done".toList, []⟩,
        ⟨2, [], [], 1, ⟨0, 0⟩, "Pending".toList, []⟩,
        ⟨3, [], [], 1, ⟨0, 0⟩, "Pending".toList, []⟩]).map Prod.snd =
      List.range' 1 (_pending_only [⟨1, [], [], 1, ⟨0, 0⟩, "Done".toList, []⟩,
        ⟨2, [], [], 1, ⟨0, 0⟩, "Pending".toList, []⟩,
        ⟨3, [], [], 1, ⟨0, 0⟩, "Pending".toList, []⟩]).length ∧
    (api_queue [⟨1, [], [], 1, ⟨0, 0⟩, "Done".toList, []⟩,
        ⟨2, [], [], 1, ⟨0, 0⟩, "Pending".toList, []⟩,
        ⟨3, [], [], 1, ⟨0, 0⟩, "Pending".toList, []⟩]).map Prod.fst =
      _pending_only [⟨1, [], [], 1, ⟨0, 0⟩, "Done".toList, []⟩,
        ⟨2, [], [], 1, ⟨0, 0⟩, "Pending".toList, []⟩,
        ⟨3, [], [], 1, ⟨0, 0⟩, "Pending".toList, []⟩] ∧
    (stepA ⟨[], [], false⟩ KioskAction.connectViewer).1 = ⟨[], [], false⟩ :=
  claim_c4_queue_numbers_contiguous
    [⟨1, [], [], 1, ⟨0, 0⟩, "Done".toList, []⟩,
     ⟨2, [], [], 1, ⟨0, 0⟩, "Pending".toList, []⟩,
     ⟨3, [], [], 1, ⟨0, 0⟩, "Pending".toList, []⟩] ⟨[], [], false⟩
